import Mathlib

/-!
Verification of the ingestion-and-aggregation pipeline of
`src/main.py` (Scarekroow/roa2-steam-leaderboard-stats), shallowly
embedded in Lean.

The embedding covers:

* the score-binning of `rivals2_plot` and `rivals2_line_plot`
  (`pd.cut` with `right=False` over the hard-coded bin edges plus the
  appended final edge `combined_df['score'].max() + 1`), the per-bin
  counts (`value_counts().reindex(...)`), the annotated percentages and
  the cumulative top percentage
  (`rank_counts[::-1].cumsum()[::-1] / total_players * 100`);
* the paginated download loop `download_xml` (the remote server is
  modelled as the list of responses the successive requests receive:
  each response is either a transport failure, or an HTTP status plus a
  body that parses to a page document or does not), the on-disk page
  cache keyed by `"{start}-{end}"`, the cache gate
  `get_leaderboard_xml` with its `os.makedirs(os.path.dirname(...))`
  call, and the dataset assembly `xml_to_df` / `get_leaderboard_df`.

Machine floats of pandas are modelled by `ℚ`; the NaN results of
unguarded divisions by a zero total, and the raising paths
(`pd.cut` on non-monotone bins, `max()` of an empty column, missing
directories, `requests` transport failures) are modelled by `Option` /
error codes.
-/

namespace Roa2

/-- One leaderboard participant record, as parsed from an `<entry>`
element of a cached page (`rank`, `steamid`, `score` columns of the
assembled dataframe). -/
structure Entry where
  rank : Nat
  steamid : String
  score : Nat
  deriving DecidableEq, Repr

/-! ### Binning (`rivals2_plot` / `rivals2_line_plot`) -/

/-- `combined_df['score'].max()` — `none` on the empty column (pandas
yields NaN there, which poisons the bin edges). -/
def scoreMax : List Nat → Option Nat
  | [] => none
  | x :: xs => some (xs.foldl Nat.max x)

/-- The twelve hard-coded lower bin edges of `rivals2_plot`
(main.py lines 82-85) without the appended final edge. -/
def fixedEdges : List Nat :=
  [0, 400, 500, 600, 700, 800, 900, 1000, 1100, 1200, 1300, 1400, 1500]

/-- The hard-coded edges of `fixedEdges` minus their head, used to
restate `fixedEdges ++ [b]` in cons form for the coverage lemma. -/
def midEdges : List Nat :=
  [400, 500, 600, 700, 800, 900, 1000, 1100, 1200, 1300, 1400, 1500]

/-- `bin_edges` of `rivals2_plot`: the fixed edges plus
`combined_df['score'].max() + 1` (line 86); undefined on the empty
dataset. -/
def plotBinEdges (scores : List Nat) : Option (List Nat) :=
  (scoreMax scores).map (fun m => fixedEdges ++ [m + 1])

/-- The hard-coded lower bin edges of `rivals2_line_plot`
(main.py lines 169-172) without the appended final edge. -/
def lineFixedEdges : List Nat := [0, 500, 700, 900, 1100, 1300, 1500]

/-- `bin_edges` of `rivals2_line_plot` (lines 169-173). -/
def lineBinEdges (scores : List Nat) : Option (List Nat) :=
  (scoreMax scores).map (fun m => lineFixedEdges ++ [m + 1])

/-- The monotonicity check `pd.cut` performs on its `bins` argument:
pandas raises `ValueError` unless the edges are monotonically
NON-DECREASING (`Index.is_monotonic_increasing`); equal adjacent edges
are accepted. -/
def isMonoNonDecB : List Nat → Bool
  | [] => true
  | [_] => true
  | a :: b :: rest => decide (a ≤ b) && isMonoNonDecB (b :: rest)

/-- Interval search of `pd.cut(..., right=False)`: the index `i` of the
first (hence, for non-decreasing edges, the unique) left-closed
right-open interval `[edges[i], edges[i+1])` containing `v`, offset by
the accumulator `i`. -/
def binIndexAux : List Nat → Nat → Nat → Option Nat
  | e0 :: e1 :: rest, v, i =>
      if e0 ≤ v ∧ v < e1 then some i else binIndexAux (e1 :: rest) v (i + 1)
  | _, _, _ => none

/-- The bin assignment of one score under `pd.cut(..., right=False)`:
`some i` when `edges[i] ≤ v < edges[i+1]`, `none` when `v` lies outside
every interval (pandas assigns NaN there). -/
def binIndex (edges : List Nat) (v : Nat) : Option Nat := binIndexAux edges v 0

/-- `ranked_bins.value_counts().reindex(bin_labels)` (lines 107-110):
the per-bin member counts, in the order of the bin labels. -/
def cutCounts (edges : List Nat) (scores : List Nat) : List Nat :=
  (List.range (edges.length - 1)).map
    (fun i => scores.countP (fun s => decide (binIndex edges s = some i)))

/-- The two validations `pd.cut` performs on its `bins` argument before
any counting: the monotonicity check (raises unless the edges are
non-decreasing), then — under the default `duplicates='raise'` — the
uniqueness check of `_bins_to_cuts`, which raises
`ValueError: Bin edges must be unique` when the edges contain a
repeated value, unless there are exactly two edges. -/
def cutIsValid (edges : List Nat) : Bool :=
  isMonoNonDecB edges && (decide edges.Nodup || decide (edges.length = 2))

/-- `pd.cut(..., bins=edges, right=False)` followed by the count
aggregation: `none` models the `ValueError` pandas raises when the
edges are not monotonically non-decreasing, or contain duplicates
(default `duplicates='raise'`, with the two-edge exemption). -/
def pdCut (edges : List Nat) (scores : List Nat) : Option (List Nat) :=
  if cutIsValid edges then some (cutCounts edges scores) else none

/-- The binning stage of `rivals2_plot` (lines 82-110) applied to the
score column: bin-edge construction, `pd.cut`, per-bin counts. -/
def rivals2PlotCounts (scores : List Nat) : Option (List Nat) :=
  (plotBinEdges scores).bind (fun e => pdCut e scores)

/-- The binning stage of `rivals2_line_plot` (lines 169-190). -/
def rivals2LineCounts (scores : List Nat) : Option (List Nat) :=
  (lineBinEdges scores).bind (fun e => pdCut e scores)

/-- The annotated percentage of `rivals2_plot` (line 133):
`(height / total_players) * 100 if total_players else 0`. -/
def plotPercentage (total count : Nat) : ℚ :=
  if total ≠ 0 then ((count : ℚ) / total) * 100 else 0

/-- The annotated percentage of `rivals2_line_plot` (line 212):
`(rank_counts[label] / total_players) * 100`, with no guard on a zero
total — `none` models the NaN/inf a zero denominator produces. -/
def linePlotPercentage (total count : Nat) : Option ℚ :=
  if total = 0 then none else some (((count : ℚ) / total) * 100)

/-- `rank_counts[::-1].cumsum()[::-1]` builds on the running sums of the
reversed count sequence; this is the plain `cumsum`. -/
def cumsumNat : List Nat → List Nat
  | [] => []
  | x :: xs => x :: (cumsumNat xs).map (fun y => x + y)

/-- `cumulative_top_percentage` of `rivals2_line_plot` (line 194):
`rank_counts[::-1].cumsum()[::-1] / total_players * 100`. -/
def cumulativeTopPercentage (counts : List Nat) (total : Nat) : List ℚ :=
  ((cumsumNat counts.reverse).reverse).map (fun c : Nat => ((c : ℚ) / total) * 100)

/-- Modelled from the spec: the suffix sums
`result[i] = l[i] + l[i+1] + ...` of a sequence, used as the spec-side
description `cumulative_top_percentage[i] = sum(percentage[j] for j ≥ i)`
to compare with the source-side `cumulativeTopPercentage`. -/
def suffixSumsQ : List ℚ → List ℚ
  | [] => []
  | x :: xs => (x + xs.sum) :: suffixSumsQ xs

/-- Suffix sums of the raw counts, the bridge between the two sides. -/
def suffixNat : List Nat → List Nat
  | [] => []
  | x :: xs => (x + xs.sum) :: suffixNat xs

/-- Modelled from the spec: the strictly-increasing-bounds condition the
spec requires the binner to validate (`ConfigError` on violation).  The
source has no such check; this predicate only states the condition. -/
def isStrictIncB : List Nat → Bool
  | [] => true
  | [_] => true
  | a :: b :: rest => decide (a < b) && isStrictIncB (b :: rest)

/-! ### Paginated download, page cache, dataset assembly -/

/-- One page document as the XML parse of `download_xml` sees it:
`entryStart`, `entryEnd`, the `<entry>` records, and whether a
`nextRequestURL` element is present (its concrete URL only selects the
next response of the modelled server stream). -/
structure PageDoc where
  entryStart : Nat
  entryEnd : Nat
  entries : List Entry
  hasNext : Bool
  deriving DecidableEq, Repr

/-- What one `requests.get(next_url)` produces: a transport failure
(the `requests` exception), or an HTTP response carrying a status code
and a body; `none` as body means the body does not parse as a page
document (`et.fromstring` or the `entryStart`/`entryEnd` lookups
fail). -/
inductive FetchOutcome where
  | transportFailure
  | ok (status : Nat) (doc : Option PageDoc)
  deriving DecidableEq, Repr

/-- The exception that aborts a run of the pipeline. -/
inductive RunError where
  | network
  | parse
  | serverEnded
  | missingDir
  | emptyConcat
  deriving DecidableEq, Repr

/-- The cache key of a page: the file name stem `f'{start}-{end}'`
(line 31). -/
def pageKey (d : PageDoc) : String :=
  toString d.entryStart ++ "-" ++ toString d.entryEnd

/-- Writing a page file: overwrites silently when the key exists,
otherwise appends a new file. -/
def cachePut (cache : List (String × PageDoc)) (d : PageDoc) :
    List (String × PageDoc) :=
  if cache.any (fun kv => kv.1 == pageKey d) then
    cache.map (fun kv => if kv.1 == pageKey d then (kv.1, d) else kv)
  else cache ++ [(pageKey d, d)]

/-- Result of a download run: the exception (if any), the final page
cache, and the number of `requests.get` calls issued. -/
structure DlOut where
  err : Option RunError
  cache : List (String × PageDoc)
  fetches : Nat
  deriving DecidableEq, Repr

/-- The `while next_url is not None` loop of `download_xml`
(lines 24-35), driven by the stream of responses the successive
requests receive.  `serverEnded` marks the unmodelled situation of a
request with no modelled response; runs are analysed with enough
responses supplied. -/
def downloadLoop : List FetchOutcome → List (String × PageDoc) → Nat → DlOut
  | [], cache, n => ⟨some RunError.serverEnded, cache, n⟩
  | FetchOutcome.transportFailure :: _, cache, n =>
      ⟨some RunError.network, cache, n + 1⟩
  | FetchOutcome.ok _ none :: _, cache, n => ⟨some RunError.parse, cache, n + 1⟩
  | FetchOutcome.ok _ (some d) :: rest, cache, n =>
      if d.hasNext then downloadLoop rest (cachePut cache d) (n + 1)
      else ⟨none, cachePut cache d, n + 1⟩

/-- `download_xml()` started on the given cache directory contents. -/
def download_xml (responses : List FetchOutcome)
    (cache : List (String × PageDoc)) : DlOut :=
  downloadLoop responses cache 0

/-- A successfully parsed page wrapped as the server response of a
request (the code never inspects the status, `200` is arbitrary). -/
def mkOk (d : PageDoc) : FetchOutcome := FetchOutcome.ok 200 (some d)

/-- `XML_CACHE` of main.py line 10. -/
def XML_CACHE : String := "./cache/xml/"

/-- Dropping the trailing `'/'` characters of a path, as the OS (and
`posixpath`) treats `".../xml/"` and `".../xml"` as the same
directory. -/
def rstripSlashes (l : List Char) : List Char :=
  (l.reverse.dropWhile (fun c => c == '/')).reverse

/-- `p[:p.rfind('/') + 1]`: everything up to and including the last
slash. -/
def keepToLastSlash (l : List Char) : List Char :=
  (l.reverse.dropWhile (fun c => c != '/')).reverse

/-- `os.path.dirname` (posixpath): take `p` up to the last slash, then
strip trailing slashes unless the head is empty or all slashes. -/
def dirname (p : String) : String :=
  let head := keepToLastSlash p.data
  if head.isEmpty || head.all (fun c => c == '/') then String.mk head
  else String.mk (rstripSlashes head)

/-- The normalized directory name a path refers to. -/
def normDir (p : String) : String := String.mk (rstripSlashes p.data)

/-- The file-system state the pipeline owns: the set of existing
directories, the page files of the XML cache directory, and the pickled
dataframe cache `./cache/df.pkl` (`none` = file absent). -/
structure FsState where
  dirs : List String
  pages : List (String × PageDoc)
  dfCache : Option (List Entry)
  deriving DecidableEq, Repr

/-- `os.makedirs(p, exist_ok=True)`. -/
def makedirs (st : FsState) (p : String) : FsState :=
  if normDir p ∈ st.dirs then st
  else { st with dirs := st.dirs ++ [normDir p] }

/-- `os.listdir(p)`: the page file names, or `none` (an `OSError`) when
the directory does not exist. -/
def listdir (st : FsState) (p : String) : Option (List String) :=
  if normDir p ∈ st.dirs then some (st.pages.map Prod.fst) else none

/-- Result of a pipeline step that touches the file system. -/
structure StepOut where
  err : Option RunError
  st : FsState
  fetches : Nat
  deriving DecidableEq, Repr

/-- `get_leaderboard_xml()` (lines 38-44):
`os.makedirs(os.path.dirname(XML_CACHE), exist_ok=True)`, then download
exactly when `os.listdir(XML_CACHE)` is empty. -/
def get_leaderboard_xml (responses : List FetchOutcome) (st0 : FsState) :
    StepOut :=
  let st1 := makedirs st0 (dirname XML_CACHE)
  match listdir st1 XML_CACHE with
  | none => ⟨some RunError.missingDir, st1, 0⟩
  | some names =>
      if names.isEmpty then
        let d := download_xml responses st1.pages
        ⟨d.err, { st1 with pages := d.cache }, d.fetches⟩
      else ⟨none, st1, 0⟩

/-- Result of the dataframe-producing steps. -/
structure DfOut where
  err : Option RunError
  df : Option (List Entry)
  st : FsState
  fetches : Nat
  deriving DecidableEq, Repr

/-- `xml_to_df()` (lines 47-59): ensure pages exist, read every cached
page's `<entry>` records in directory-enumeration order, and
concatenate them (`pd.concat`, which raises on an empty file list —
modelled by `emptyConcat`). -/
def xml_to_df (responses : List FetchOutcome) (st0 : FsState) : DfOut :=
  let g := get_leaderboard_xml responses st0
  match g.err with
  | some e => ⟨some e, none, g.st, g.fetches⟩
  | none =>
      let dfs := g.st.pages.map (fun kv => kv.2.entries)
      if dfs.isEmpty then ⟨some RunError.emptyConcat, none, g.st, g.fetches⟩
      else ⟨none, some dfs.flatten, g.st, g.fetches⟩

/-- `get_leaderboard_df()` (lines 62-73): return the pickled dataframe
when `./cache/df.pkl` exists, otherwise assemble via `xml_to_df` and
pickle the result. -/
def get_leaderboard_df (responses : List FetchOutcome) (st0 : FsState) :
    DfOut :=
  match st0.dfCache with
  | some ds => ⟨none, some ds, st0, 0⟩
  | none =>
      let x := xml_to_df responses st0
      match x.df with
      | some ds => ⟨none, some ds, { x.st with dfCache := some ds }, x.fetches⟩
      | none => x

/-! ### Concrete fixtures used by witnesses and counterexamples -/

/-- The page `[1-2]` of the spec's pagination-assembly example. -/
def samplePage12 : PageDoc :=
  ⟨1, 2, [⟨1, "a", 10⟩, ⟨2, "b", 20⟩], true⟩

/-- The page `[3-4]` of the spec's pagination-assembly example. -/
def samplePage34 : PageDoc :=
  ⟨3, 4, [⟨3, "c", 30⟩, ⟨4, "d", 5⟩], false⟩

/-- A middle page (`[3-3]`, next present) used by the HTTP-status
counterexample. -/
def midPage : PageDoc := ⟨3, 3, [⟨3, "c", 30⟩], true⟩

/-- A file-system state with a warm (non-empty) page cache. -/
def warmSt : FsState :=
  ⟨["./cache/xml"], [(pageKey samplePage12, samplePage12)], none⟩

/-- A file-system state holding both sample pages and no dataframe
cache. -/
def twoPageSt : FsState :=
  ⟨["./cache/xml"],
    [(pageKey samplePage12, samplePage12), (pageKey samplePage34, samplePage34)],
    none⟩

/-- A completely empty file system (fresh checkout, no cache). -/
def emptySt : FsState := ⟨[], [], none⟩

/-- The bin counts `rivals2_plot` produces for the witness dataset
`[1400, 1400, 1400, 1500]`: three Diamond 1400-1499 players, one
Master. -/
def c7Counts : List Nat := [0, 0, 0, 0, 0, 0, 0, 0, 0, 0, 0, 3, 1]

/-! ### Helper lemmas: sums, counting, coverage -/

theorem sum_map_add {α : Type} (l : List α) (f g : α → Nat) :
    (l.map (fun x => f x + g x)).sum = (l.map f).sum + (l.map g).sum := by
  induction l with
  | nil => rfl
  | cons a l ih =>
      simp only [List.map_cons, List.sum_cons, ih]
      omega

theorem sum_indicator_range (m : Nat) (o : Option Nat) :
    ((List.range m).map (fun i => if o = some i then 1 else 0)).sum
      = (match o with | some j => if j < m then 1 else 0 | none => 0) := by
  induction m with
  | zero => cases o <;> simp
  | succ m ih =>
      rw [List.range_succ, List.map_append, List.sum_append, ih]
      cases o with
      | none => simp
      | some j =>
          simp only [List.map_cons, List.map_nil, List.sum_cons, List.sum_nil,
            Option.some.injEq]
          by_cases h : j = m
          · subst h
            simp [Nat.lt_irrefl, Nat.lt_succ_self]
          · by_cases h2 : j < m
            · simp [h, h2, Nat.lt_succ_of_lt h2]
            · have h3 : ¬ j < m + 1 := by omega
              simp [h, h2, h3]

theorem sum_counts_eq_countP (m : Nat) (f : Nat → Option Nat)
    (scores : List Nat) :
    ((List.range m).map
        (fun i => scores.countP (fun s => decide (f s = some i)))).sum
      = scores.countP
          (fun s => match f s with | some j => decide (j < m) | none => false) := by
  induction scores with
  | nil => simp
  | cons s rest ih =>
      simp only [List.countP_cons, sum_map_add, ih, decide_eq_true_eq]
      congr 1
      rw [sum_indicator_range]
      cases hfs : f s with
      | none => simp
      | some j => by_cases hj : j < m <;> simp [hj]

theorem binIndexAux_covers (mids : List Nat) :
    ∀ (e0 b v i : Nat), e0 ≤ v → v < b →
      ∃ j, binIndexAux (e0 :: (mids ++ [b])) v i = some j ∧
        j < i + mids.length + 1 := by
  induction mids with
  | nil =>
      intro e0 b v i h0 hb
      exact ⟨i, by simp [binIndexAux, h0, hb], by omega⟩
  | cons e1 ms ih =>
      intro e0 b v i h0 hb
      by_cases hv : v < e1
      · exact ⟨i, by simp [binIndexAux, h0, hv], by simp; omega⟩
      · obtain ⟨j, hj, hjb⟩ := ih e1 b v (i + 1) (Nat.le_of_not_lt hv) hb
        refine ⟨j, ?_, ?_⟩
        · simpa [binIndexAux, hv] using hj
        · simp only [List.length_cons]
          omega

theorem le_foldl_max (xs : List Nat) (a : Nat) : a ≤ xs.foldl Nat.max a := by
  induction xs generalizing a with
  | nil => exact Nat.le_refl a
  | cons x xs ih =>
      exact Nat.le_trans (Nat.le_max_left a x) (ih (Nat.max a x))

theorem mem_le_foldl_max (xs : List Nat) (a s : Nat) (hs : s ∈ xs) :
    s ≤ xs.foldl Nat.max a := by
  induction xs generalizing a with
  | nil => cases hs
  | cons x xs ih =>
      rcases List.mem_cons.1 hs with h | h
      · subst h
        exact Nat.le_trans (Nat.le_max_right a s) (le_foldl_max xs (Nat.max a s))
      · exact ih (Nat.max a x) h

theorem scoreMax_ge (ds : List Nat) (m : Nat) (h : scoreMax ds = some m) :
    ∀ s ∈ ds, s ≤ m := by
  cases ds with
  | nil => cases h
  | cons x xs =>
      intro s hs
      have hm : xs.foldl Nat.max x = m := by
        simpa [scoreMax] using h
      rcases List.mem_cons.1 hs with h1 | h1
      · subst h1
        exact hm ▸ le_foldl_max xs s
      · exact hm ▸ mem_le_foldl_max xs x s h1

theorem fixedEdges_cons (k : Nat) :
    fixedEdges ++ [k] = 0 :: (midEdges ++ [k]) := rfl

theorem isMonoNonDecB_fixed (k : Nat) :
    isMonoNonDecB (fixedEdges ++ [k]) = decide (1500 ≤ k) := by
  simp [fixedEdges, isMonoNonDecB]

/-- The constructed edge list of `rivals2_plot` passes both `pd.cut`
validations exactly when the appended final edge exceeds the last fixed
edge 1500: at `k = 1500` the edges end `1500, 1500` and the duplicate
check fires, below that the monotonicity check fires. -/
theorem cutIsValid_fixed (k : Nat) :
    cutIsValid (fixedEdges ++ [k]) = decide (1500 < k) := by
  by_cases h : 1500 < k
  · have h1 : isMonoNonDecB (fixedEdges ++ [k]) = true := by
      rw [isMonoNonDecB_fixed]
      simp only [decide_eq_true_eq]
      omega
    have h2 : (fixedEdges ++ [k]).Nodup := by
      simp [fixedEdges]
      omega
    simp [cutIsValid, h1, h2, h]
  · rcases Nat.lt_or_ge k 1500 with hk | hk
    · have h1 : isMonoNonDecB (fixedEdges ++ [k]) = false := by
        rw [isMonoNonDecB_fixed]
        simp only [decide_eq_false_iff_not]
        omega
      simp [cutIsValid, h1, h]
    · have hk2 : k = 1500 := by omega
      subst hk2
      decide

theorem strictInc_of_mono_nodup (edges : List Nat)
    (hm : isMonoNonDecB edges = true) (hn : edges.Nodup) :
    isStrictIncB edges = true := by
  induction edges with
  | nil => rfl
  | cons a rest ih =>
      cases rest with
      | nil => rfl
      | cons b rest2 =>
          simp only [isMonoNonDecB, Bool.and_eq_true, decide_eq_true_eq] at hm
          rw [List.nodup_cons] at hn
          obtain ⟨hab, hmono⟩ := hm
          obtain ⟨hmem, hn2⟩ := hn
          have hne : a ≠ b := fun he => hmem (he ▸ List.mem_cons_self b rest2)
          simp only [isStrictIncB, Bool.and_eq_true, decide_eq_true_eq]
          exact ⟨Nat.lt_of_le_of_ne hab hne, ih hmono hn2⟩

/-- Any edge list (other than a two-edge one) whose bounds are not
strictly increasing fails one of `pd.cut`'s two validations, so the
binner produces no counts for it. -/
theorem pdCut_rejects_nonstrict (edges scores : List Nat)
    (hlen : edges.length ≠ 2) (hs : isStrictIncB edges = false) :
    pdCut edges scores = none := by
  have hv : cutIsValid edges = false := by
    by_cases hm : isMonoNonDecB edges = true
    · by_cases hn : edges.Nodup
      · rw [strictInc_of_mono_nodup edges hm hn] at hs
        cases hs
      · simp [cutIsValid, hm, hn, hlen]
    · have hm2 : isMonoNonDecB edges = false := by
        cases hb : isMonoNonDecB edges
        · rfl
        · exact absurd hb hm
      simp [cutIsValid, hm2]
  simp [pdCut, hv]

/-- Every score bounded by the final edge lands in exactly one of the 13
bins of `rivals2_plot`'s edge list. -/
theorem plot_bin_coverage (b s : Nat) (hb : s < b) :
    ∃ j, binIndex (fixedEdges ++ [b]) s = some j ∧ j < 13 := by
  obtain ⟨j, hj, hjb⟩ :=
    binIndexAux_covers midEdges 0 b s 0 (Nat.zero_le s) hb
  refine ⟨j, ?_, ?_⟩
  · rw [binIndex, fixedEdges_cons]
    exact hj
  · simpa [midEdges] using hjb

/-! ### Helper lemmas: cumulative sums -/

theorem cumsumNat_append_single (ys : List Nat) (x : Nat) :
    cumsumNat (ys ++ [x]) = cumsumNat ys ++ [ys.sum + x] := by
  induction ys with
  | nil => simp [cumsumNat]
  | cons y ys ih =>
      simp [cumsumNat, ih, Nat.add_assoc]

theorem rev_cumsum_rev (l : List Nat) :
    (cumsumNat l.reverse).reverse = suffixNat l := by
  induction l with
  | nil => rfl
  | cons x xs ih =>
      rw [List.reverse_cons, cumsumNat_append_single, List.reverse_append]
      simp [ih, suffixNat, List.sum_reverse, Nat.add_comm]

theorem sum_map_pct (l : List Nat) (t : Nat) :
    (l.map (fun c : Nat => ((c : ℚ) / t) * 100)).sum = ((l.sum : ℚ) / t) * 100 := by
  induction l with
  | nil => simp
  | cons c l ih =>
      simp only [List.map_cons, List.sum_cons, ih, List.sum_cons]
      push_cast
      ring

theorem map_pct_suffixNat (l : List Nat) (t : Nat) :
    (suffixNat l).map (fun c : Nat => ((c : ℚ) / t) * 100)
      = suffixSumsQ (l.map (fun c : Nat => ((c : ℚ) / t) * 100)) := by
  induction l with
  | nil => rfl
  | cons x xs ih =>
      simp only [suffixNat, suffixSumsQ, List.map_cons, ih, sum_map_pct]
      congr 1
      push_cast
      ring

/-! ### Claim theorems: binning and percentages -/

/-- C1 (code evaluated at the failing input): on the empty dataset the
binning of both plots fails — `max()` of the empty score column is
undefined (NaN), so the bin-edge construction poisons `pd.cut` — and
the unguarded percentage of `rivals2_line_plot` yields no number (NaN)
for a zero total, contradicting the spec's "all counts 0, all
percentages 0 (not NaN), explicit guarded case". -/
theorem c1_empty_dataset_fails :
    rivals2PlotCounts [] = none ∧ rivals2LineCounts [] = none ∧
      linePlotPercentage 0 0 = none := ⟨rfl, rfl, rfl⟩

/-- C2 counterexample: for the non-empty dataset `[100]` the appended
final edge is `101 < 1500`, the edge list is not monotone, `pd.cut`
raises, and no score is binned at all — refuting "for every non-empty
dataset ... every score falls into exactly one bin". -/
theorem c2_counterexample : rivals2PlotCounts [100] = none := by decide

/-- C2 (amended): for every non-empty dataset whose maximum score `m`
is at least 1500 (so the appended final edge `m + 1` strictly exceeds
the last fixed lower bound 1500, making the edge list strictly
increasing and passing both `pd.cut` validations — at `m = 1499` the
duplicate edge `1500, 1500` already raises), binning succeeds and every
score falls into exactly one of the 13 left-inclusive right-exclusive
bins `[bound[i], bound[i+1])`. -/
theorem c2_unique_bin_above_threshold (ds : List Nat) (m : Nat)
    (hm : scoreMax ds = some m) (hge : 1500 ≤ m) :
    (rivals2PlotCounts ds).isSome = true ∧
      ∀ s ∈ ds, ∃ i, binIndex (fixedEdges ++ [m + 1]) s = some i ∧ i < 13 ∧
        ∀ j, binIndex (fixedEdges ++ [m + 1]) s = some j → j = i := by
  constructor
  · have hv : cutIsValid (fixedEdges ++ [m + 1]) = true := by
      rw [cutIsValid_fixed]
      simp only [decide_eq_true_eq]
      omega
    simp [rivals2PlotCounts, plotBinEdges, hm, pdCut, hv]
  · intro s hs
    have hsm : s ≤ m := scoreMax_ge ds m hm s hs
    obtain ⟨i, hi, hi13⟩ := plot_bin_coverage (m + 1) s (by omega)
    exact ⟨i, hi, hi13, fun j hj => by rw [hi] at hj; exact (Option.some.inj hj).symm⟩

/-- Witness for C2 at the spec's coverage example `[0, 399, 400, 1500]`
(maximum score 1500). -/
theorem c2_witness : (rivals2PlotCounts [0, 399, 400, 1500]).isSome = true :=
  (c2_unique_bin_above_threshold [0, 399, 400, 1500] 1500 (by decide) (by decide)).1

/-- The coverage example in full: the maximum score 1500 is assigned to
the top bin (index 12, 'Master 1500+'), and the counts place scores 0
and 399 in bin 0, 400 in bin 1, 1500 in bin 12. -/
theorem max_score_in_top_bin :
    binIndex (fixedEdges ++ [1501]) 1500 = some 12 ∧
      rivals2PlotCounts [0, 399, 400, 1500]
        = some [2, 1, 0, 0, 0, 0, 0, 0, 0, 0, 0, 0, 1] := by decide

/-- C4 counterexample: the dataset `[1499]` is perfectly well-formed
content, yet the binner raises on it — the constructed edges end
`..., 1400, 1500, 1500`, and `pd.cut` under the default
`duplicates='raise'` raises `ValueError: Bin edges must be unique` —
refuting at a concrete input the claim's "the binner never raises on
the content of the dataset itself" (no ConfigError or any other
validation distinct from `pd.cut`'s own exists in the code). -/
theorem c4_counterexample : rivals2PlotCounts [1499] = none := by decide

/-- C4 (amended): the binner has no ConfigError and no upfront bound
validation of its own; an edge list (other than a two-edge one) whose
bounds are not strictly increasing is rejected by `pd.cut`'s own
`ValueError` at binning time (decreasing edges fail the monotonicity
check, equal adjacent edges the duplicate check), and — the final bound
being `max(score) + 1` — the binner does raise depending on the
dataset's content alone: binning fails exactly on the empty dataset or
when the maximum score is below 1500. -/
theorem c4_no_validation_and_data_dependent_failure (ds : List Nat) :
    (∀ edges scores : List Nat, edges.length ≠ 2 →
        isStrictIncB edges = false → pdCut edges scores = none) ∧
      (rivals2PlotCounts ds = none ↔
        ds = [] ∨ ∃ m, scoreMax ds = some m ∧ m < 1500) := by
  constructor
  · exact fun edges scores hlen hs => pdCut_rejects_nonstrict edges scores hlen hs
  · cases ds with
    | nil => simp [rivals2PlotCounts, plotBinEdges, scoreMax]
    | cons x xs =>
        have hm : scoreMax (x :: xs) = some (xs.foldl Nat.max x) := rfl
        simp only [rivals2PlotCounts, plotBinEdges, hm, Option.map_some',
          Option.some_bind, pdCut, cutIsValid_fixed, List.cons_ne_nil,
          false_or, Option.some.injEq]
        constructor
        · intro h
          refine ⟨xs.foldl Nat.max x, rfl, ?_⟩
          by_cases hle : 1500 < xs.foldl Nat.max x + 1
          · simp [hle] at h
          · omega
        · rintro ⟨m, hm2, hlt⟩
          have hle : ¬ 1500 < xs.foldl Nat.max x + 1 := by omega
          simp [hle]

/-- Witness for C4's universal part: the three-edge list `[0, 0, 5]` is
not strictly increasing and the binner rejects it, producing no
counts. -/
theorem c4_witness : pdCut [0, 0, 5] [3] = none :=
  (c4_no_validation_and_data_dependent_failure []).1 [0, 0, 5] [3]
    (by decide) (by decide)

/-- C6: the cumulative top percentage of `rivals2_line_plot`
(`rank_counts[::-1].cumsum()[::-1] / total_players * 100`) equals, bin
for bin and in the given low-score-first bin order, the suffix sums of
the per-bin percentages `count / total * 100`; e.g. percentages
`[50, 30, 20]` yield `[100, 50, 20]`. -/
theorem c6_cumulative_top_is_suffix_sum (counts : List Nat) (total : Nat) :
    cumulativeTopPercentage counts total
      = suffixSumsQ (counts.map (fun c : Nat => ((c : ℚ) / total) * 100)) := by
  unfold cumulativeTopPercentage
  rw [rev_cumsum_rev, map_pct_suffixNat]

/-- The spec's cumulative-top example: counts `[5, 3, 2]` of 10 players
give percentages 50/30/20 and cumulative top percentages
`[100, 50, 20]`. -/
theorem cumulative_top_example :
    cumulativeTopPercentage [5, 3, 2] 10 = [100, 50, 20] := by
  norm_num [cumulativeTopPercentage, cumsumNat]

/-- C7: whenever the binning of `rivals2_plot` succeeds, the total is
the sum of the per-bin counts and equals the dataset size (every score
is counted exactly once), and — the dataset being non-empty — the
annotated percentages `count / total * 100` (0-guarded, line 133) sum
to exactly 100. -/
theorem c7_percentage_sum (ds : List Nat) (counts : List Nat)
    (h : rivals2PlotCounts ds = some counts) :
    counts.sum = ds.length ∧
      (ds ≠ [] → (counts.map (plotPercentage counts.sum)).sum = 100) := by
  rcases hm : scoreMax ds with _ | m
  · rw [rivals2PlotCounts, plotBinEdges, hm] at h
    cases h
  · rw [rivals2PlotCounts, plotBinEdges, hm] at h
    simp only [Option.map_some', Option.some_bind, pdCut] at h
    by_cases hv : cutIsValid (fixedEdges ++ [m + 1]) = true
    · rw [if_pos hv] at h
      have hc : counts = cutCounts (fixedEdges ++ [m + 1]) ds :=
        (Option.some.inj h).symm
      subst hc
      have hlen : (fixedEdges ++ [m + 1]).length - 1 = 13 := by
        simp [fixedEdges]
      have hsum : (cutCounts (fixedEdges ++ [m + 1]) ds).sum = ds.length := by
        unfold cutCounts
        rw [hlen, sum_counts_eq_countP 13 (binIndex (fixedEdges ++ [m + 1])) ds]
        apply List.countP_eq_length.2
        intro s hs
        have hsm : s ≤ m := scoreMax_ge ds m hm s hs
        obtain ⟨j, hj, hj13⟩ := plot_bin_coverage (m + 1) s (by omega)
        rw [hj]
        simpa using hj13
      refine ⟨hsum, fun hne => ?_⟩
      have ht : (cutCounts (fixedEdges ++ [m + 1]) ds).sum ≠ 0 := by
        rw [hsum]
        have hp : 0 < ds.length := List.length_pos.2 hne
        omega
      have hmap : (cutCounts (fixedEdges ++ [m + 1]) ds).map
            (plotPercentage (cutCounts (fixedEdges ++ [m + 1]) ds).sum)
          = (cutCounts (fixedEdges ++ [m + 1]) ds).map
            (fun c : Nat =>
              ((c : ℚ) / ((cutCounts (fixedEdges ++ [m + 1]) ds).sum : Nat)) * 100) := by
        simp [plotPercentage, ht]
      rw [hmap, sum_map_pct]
      rw [div_self (by exact_mod_cast ht)]
      norm_num
    · rw [if_neg hv] at h
      cases h

/-- Witness for C7 at the spec's percentage example: three players in
one bin, one in another (scores `[1400, 1400, 1400, 1500]`, counts 3
Diamond and 1 Master), whose percentages 75 and 25 sum to 100. -/
theorem c7_witness :
    (c7Counts.map (plotPercentage c7Counts.sum)).sum = 100 :=
  (c7_percentage_sum [1400, 1400, 1400, 1500] c7Counts (by decide)).2 (by decide)

/-! ### Helper lemmas: cache, download loop, file system -/

theorem cache_dirname_eq : normDir (dirname XML_CACHE) = normDir XML_CACHE := by
  decide

theorem makedirs_pages (st : FsState) (p : String) :
    (makedirs st p).pages = st.pages := by
  unfold makedirs
  split <;> rfl

theorem mem_makedirs_self (st : FsState) (p : String) :
    normDir p ∈ (makedirs st p).dirs := by
  unfold makedirs
  by_cases h : normDir p ∈ st.dirs
  · simp [h]
  · simp [h]

/-- On a warm (non-empty) page cache the gate is a no-op apart from the
`makedirs` call: no error, no fetch, cache untouched. -/
theorem get_leaderboard_xml_warm (responses : List FetchOutcome) (st : FsState)
    (h : st.pages ≠ []) :
    get_leaderboard_xml responses st
      = ⟨none, makedirs st (dirname XML_CACHE), 0⟩ := by
  have hmem : normDir XML_CACHE ∈ (makedirs st (dirname XML_CACHE)).dirs := by
    rw [← cache_dirname_eq]
    exact mem_makedirs_self st (dirname XML_CACHE)
  have hld : listdir (makedirs st (dirname XML_CACHE)) XML_CACHE
      = some ((makedirs st (dirname XML_CACHE)).pages.map Prod.fst) := by
    simp [listdir, hmem]
  have hne : ((makedirs st (dirname XML_CACHE)).pages.map Prod.fst).isEmpty
      = false := by
    rw [makedirs_pages]
    cases hp : st.pages with
    | nil => exact absurd hp h
    | cons a l => simp
  simp [get_leaderboard_xml, hld, hne]

theorem downloadLoop_no_missingDir (rs : List FetchOutcome)
    (cache : List (String × PageDoc)) (n : Nat) :
    (downloadLoop rs cache n).err ≠ some RunError.missingDir := by
  induction rs generalizing cache n with
  | nil => simp [downloadLoop]
  | cons r rest ih =>
      cases r with
      | transportFailure => simp [downloadLoop]
      | ok status doc =>
          cases doc with
          | none => simp [downloadLoop]
          | some d =>
              by_cases hd : d.hasNext = true
              · simpa [downloadLoop, hd] using ih (cachePut cache d) (n + 1)
              · simp [downloadLoop, hd]

theorem downloadLoop_good_pages (docs : List PageDoc) (rest : List FetchOutcome)
    (cache : List (String × PageDoc)) (n : Nat)
    (h : ∀ d ∈ docs, d.hasNext = true) :
    downloadLoop (docs.map mkOk ++ rest) cache n
      = downloadLoop rest (docs.foldl cachePut cache) (n + docs.length) := by
  induction docs generalizing cache n with
  | nil => simp
  | cons d ds ih =>
      have hd : d.hasNext = true := h d (List.mem_cons_self d ds)
      have harith : n + 1 + ds.length = n + (ds.length + 1) := by omega
      simp only [List.map_cons, List.cons_append, mkOk, downloadLoop, hd,
        if_true, List.foldl_cons, List.length_cons, List.append_eq]
      rw [ih (cachePut cache d) (n + 1)
        (fun x hx => h x (List.mem_cons_of_mem d hx)), harith]

theorem cachePut_fresh (cache : List (String × PageDoc)) (d : PageDoc)
    (h : pageKey d ∉ cache.map Prod.fst) :
    cachePut cache d = cache ++ [(pageKey d, d)] := by
  unfold cachePut
  rw [if_neg]
  intro hc
  rw [List.any_eq_true] at hc
  obtain ⟨kv, hkv, he⟩ := hc
  exact h (List.mem_map.mpr ⟨kv, hkv, by simpa using he⟩)

theorem foldl_cachePut_eq_map (docs : List PageDoc) :
    ∀ cache : List (String × PageDoc),
      (docs.map pageKey).Nodup →
      (∀ d ∈ docs, pageKey d ∉ cache.map Prod.fst) →
      docs.foldl cachePut cache = cache ++ docs.map (fun d => (pageKey d, d)) := by
  induction docs with
  | nil =>
      intro cache _ _
      simp
  | cons d ds ih =>
      intro cache hnd hfresh
      rw [List.map_cons, List.nodup_cons] at hnd
      obtain ⟨hdk, hnd2⟩ := hnd
      have h1 : cachePut cache d = cache ++ [(pageKey d, d)] :=
        cachePut_fresh cache d (hfresh d (List.mem_cons_self d ds))
      have hfresh2 : ∀ x ∈ ds,
          pageKey x ∉ (cache ++ [(pageKey d, d)]).map Prod.fst := by
        intro x hx
        rw [List.map_append]
        simp only [List.mem_append, List.map_cons, List.map_nil,
          List.mem_singleton]
        rintro (hc | hc)
        · exact hfresh x (List.mem_cons_of_mem d hx) hc
        · exact hdk (hc ▸ List.mem_map_of_mem pageKey hx)
      rw [List.foldl_cons, h1, ih (cache ++ [(pageKey d, d)]) hnd2 hfresh2]
      simp

/-! ### Claim theorems: ingestion, cache gate, assembly -/

/-- C3: whenever the page cache is non-empty — complete or partial —
`get_leaderboard_xml` returns immediately after the `makedirs` call:
no download is triggered, zero `requests.get` calls are made, and the
cached pages are untouched. -/
theorem c3_warm_cache_skips_download (responses : List FetchOutcome)
    (st : FsState) (h : st.pages ≠ []) :
    get_leaderboard_xml responses st
      = ⟨none, makedirs st (dirname XML_CACHE), 0⟩ :=
  get_leaderboard_xml_warm responses st h

/-- Witness for C3: a cache holding one page (a strict subset of the
server's pages) still suppresses the download entirely. -/
theorem c3_witness :
    get_leaderboard_xml [] warmSt
      = ⟨none, makedirs warmSt (dirname XML_CACHE), 0⟩ :=
  c3_warm_cache_skips_download [] warmSt (by decide)

/-- C5 counterexample: a server answering with HTTP statuses 200, 500,
404 (each with a parseable body) makes the run SUCCEED — the code never
inspects the status, so a non-success status does not fail the fetch
with NetworkError as claimed. -/
theorem c5_counterexample :
    download_xml [FetchOutcome.ok 200 (some samplePage12),
        FetchOutcome.ok 500 (some midPage),
        FetchOutcome.ok 404 (some samplePage34)] []
      = ⟨none,
          [(pageKey samplePage12, samplePage12), (pageKey midPage, midPage),
            (pageKey samplePage34, samplePage34)], 3⟩ := by decide

/-- C5 (amended): a page fetch fails on transport failure only (the
HTTP status is never inspected; a non-success body is parsed like any
other).  When page k + 1 of a longer sequence fails by transport error,
the run fails with the network error rather than returning partial
success, and the page cache afterwards contains exactly the k pages
fetched before the failure. -/
theorem c5_transport_error_keeps_prefix (docs : List PageDoc)
    (hnext : ∀ d ∈ docs, d.hasNext = true)
    (hkeys : (docs.map pageKey).Nodup) :
    download_xml (docs.map mkOk ++ [FetchOutcome.transportFailure]) []
      = ⟨some RunError.network, docs.map (fun d => (pageKey d, d)),
          docs.length + 1⟩ := by
  unfold download_xml
  rw [downloadLoop_good_pages docs _ [] 0 hnext]
  rw [foldl_cachePut_eq_map docs [] hkeys (by simp)]
  simp [downloadLoop]

/-- Witness for C5: transport failure on page 2 of an intended longer
sequence leaves exactly page 1 in the cache. -/
theorem c5_witness :
    download_xml ([samplePage12].map mkOk ++ [FetchOutcome.transportFailure]) []
      = ⟨some RunError.network,
          [samplePage12].map (fun d => (pageKey d, d)),
          [samplePage12].length + 1⟩ :=
  c5_transport_error_keeps_prefix [samplePage12] (by decide) (by decide)

/-- C9: for a finite response sequence of well-formed pages whose last
page has no `nextRequestURL` (and all earlier ones do), with distinct
page ranges, ingestion performs exactly one fetch per page, persists
every page keyed `"{start}-{end}"` in fetch order, terminates without
error, and issues exactly as many fetch calls as there are pages.  (The
locator advance `next_url := page.next` is the step from one response
of the modelled stream to the next.) -/
theorem c9_one_fetch_per_page (init : List PageDoc) (lastPage : PageDoc)
    (hnext : ∀ d ∈ init, d.hasNext = true)
    (hlast : lastPage.hasNext = false)
    (hkeys : ((init ++ [lastPage]).map pageKey).Nodup) :
    download_xml ((init ++ [lastPage]).map mkOk) []
      = ⟨none, (init ++ [lastPage]).map (fun d => (pageKey d, d)),
          (init ++ [lastPage]).length⟩ := by
  unfold download_xml
  rw [List.map_append, downloadLoop_good_pages init _ [] 0 hnext]
  have hall : (init ++ [lastPage]).foldl cachePut []
      = (init ++ [lastPage]).map (fun d => (pageKey d, d)) := by
    simpa using foldl_cachePut_eq_map (init ++ [lastPage]) [] hkeys (by simp)
  rw [List.foldl_append] at hall
  simp only [List.foldl_cons, List.foldl_nil] at hall
  simp only [List.map_cons, List.map_nil, mkOk, downloadLoop, hlast,
    Bool.false_eq_true, if_false, hall]
  simp

/-- Witness for C9: the two-page chain `[1-2] → [3-4]` is ingested with
exactly two fetches and both pages cached under their range keys. -/
theorem c9_witness :
    download_xml (([samplePage12] ++ [samplePage34]).map mkOk) []
      = ⟨none, ([samplePage12] ++ [samplePage34]).map (fun d => (pageKey d, d)),
          ([samplePage12] ++ [samplePage34]).length⟩ :=
  c9_one_fetch_per_page [samplePage12] samplePage34 (by decide) (by decide)
    (by decide)

/-- C10: starting with no page-cache directory (and hence no cached
pages), the gate first creates the directory — `os.path.dirname` of the
trailing-slash `XML_CACHE` is the cache directory itself — so the
coldness check cannot fail with a missing-directory error; the fresh
empty directory is treated as cold and the full paginated download
runs; afterwards the cache directory exists. -/
theorem c10_cold_start_creates_dir (responses : List FetchOutcome)
    (st : FsState) (hdir : normDir XML_CACHE ∉ st.dirs)
    (hpages : st.pages = []) :
    (get_leaderboard_xml responses st).st.dirs
        = st.dirs ++ [normDir XML_CACHE] ∧
      normDir XML_CACHE ∈ (get_leaderboard_xml responses st).st.dirs ∧
      (get_leaderboard_xml responses st).err ≠ some RunError.missingDir ∧
      (get_leaderboard_xml responses st).fetches
        = (download_xml responses []).fetches ∧
      (get_leaderboard_xml responses st).st.pages
        = (download_xml responses []).cache := by
  have hdir2 : normDir (dirname XML_CACHE) ∉ st.dirs := by
    rw [cache_dirname_eq]
    exact hdir
  have h1 : makedirs st (dirname XML_CACHE)
      = ⟨st.dirs ++ [normDir XML_CACHE], st.pages, st.dfCache⟩ := by
    unfold makedirs
    rw [if_neg hdir2, cache_dirname_eq]
  have hrun : get_leaderboard_xml responses st
      = ⟨(download_xml responses []).err,
          ⟨st.dirs ++ [normDir XML_CACHE], (download_xml responses []).cache,
            st.dfCache⟩,
          (download_xml responses []).fetches⟩ := by
    unfold get_leaderboard_xml
    rw [h1]
    have hmem : normDir XML_CACHE ∈ st.dirs ++ [normDir XML_CACHE] := by simp
    simp [listdir, hmem, hpages]
  rw [hrun]
  exact ⟨rfl, by simp, downloadLoop_no_missingDir responses [] 0, rfl, rfl⟩

/-- Witness for C10: a completely fresh file system with a one-page
server; the directory is created, the page downloaded. -/
theorem c10_witness :
    (get_leaderboard_xml [mkOk samplePage34] emptySt).st.dirs
        = emptySt.dirs ++ [normDir XML_CACHE] ∧
      normDir XML_CACHE ∈ (get_leaderboard_xml [mkOk samplePage34] emptySt).st.dirs ∧
      (get_leaderboard_xml [mkOk samplePage34] emptySt).err
        ≠ some RunError.missingDir ∧
      (get_leaderboard_xml [mkOk samplePage34] emptySt).fetches
        = (download_xml [mkOk samplePage34] []).fetches ∧
      (get_leaderboard_xml [mkOk samplePage34] emptySt).st.pages
        = (download_xml [mkOk samplePage34] []).cache :=
  c10_cold_start_creates_dir [mkOk samplePage34] emptySt (by decide) (by decide)

/-- C8: when the whole-dataset cache is present, `get_leaderboard_df`
returns it unchanged, touching nothing (zero fetches, state
unchanged); otherwise (here on a warm page cache) it assembles the
concatenation of all cached pages' entries in enumeration order,
persists it in the dataframe cache, and the result's members are
exactly the union of the pages' entries. -/
theorem c8_get_dataset (responses : List FetchOutcome) (st : FsState) :
    (∀ ds, st.dfCache = some ds →
        get_leaderboard_df responses st = ⟨none, some ds, st, 0⟩) ∧
      (st.dfCache = none → st.pages ≠ [] →
        get_leaderboard_df responses st
            = ⟨none, some ((st.pages.map (fun kv => kv.2.entries)).flatten),
                { makedirs st (dirname XML_CACHE) with
                    dfCache :=
                      some ((st.pages.map (fun kv => kv.2.entries)).flatten) },
                0⟩ ∧
          ∀ e : Entry,
            e ∈ (st.pages.map (fun kv => kv.2.entries)).flatten ↔
              ∃ kv ∈ st.pages, e ∈ kv.2.entries) := by
  constructor
  · intro ds hds
    simp [get_leaderboard_df, hds]
  · intro hnone hne
    have hne2 : ((st.pages.map (fun kv => kv.2.entries))).isEmpty = false := by
      cases hp : st.pages with
      | nil => exact absurd hp hne
      | cons a l => simp
    have hxml : xml_to_df responses st
        = ⟨none, some ((st.pages.map (fun kv => kv.2.entries)).flatten),
            makedirs st (dirname XML_CACHE), 0⟩ := by
      unfold xml_to_df
      rw [get_leaderboard_xml_warm responses st hne]
      simp [makedirs_pages, hne2]
    constructor
    · unfold get_leaderboard_df
      rw [hnone]
      simp [hxml]
    · intro e
      constructor
      · intro he
        obtain ⟨l, hl, hel⟩ := List.mem_flatten.1 he
        obtain ⟨kv, hkv, rfl⟩ := List.mem_map.1 hl
        exact ⟨kv, hkv, hel⟩
      · rintro ⟨kv, hkv, he⟩
        exact List.mem_flatten.2
          ⟨kv.2.entries, List.mem_map_of_mem (fun kv => kv.2.entries) hkv, he⟩

/-- Witness for C8 at the spec's pagination-assembly example: pages
`[1-2]` and `[3-4]` yield all four entries and the assembled dataset is
persisted. -/
theorem c8_witness :
    get_leaderboard_df [] twoPageSt
      = ⟨none, some ((twoPageSt.pages.map (fun kv => kv.2.entries)).flatten),
          { makedirs twoPageSt (dirname XML_CACHE) with
              dfCache :=
                some ((twoPageSt.pages.map (fun kv => kv.2.entries)).flatten) },
          0⟩ :=
  ((c8_get_dataset [] twoPageSt).2 rfl (by decide)).1

end Roa2
